import Mathlib

/-!
Shallow embedding of the HDmap repository (yiliangbetter/HDmap).

The source of truth is the C++ under `src/src/` and `src/include/`:
  * `types.cpp` / `types.hpp` — geometry primitives and entity records,
  * `rtree.cpp`  — the R-tree spatial index (raw-pointer revision, the one
    the claims cite),
  * `map_server.cpp` / `map_server.hpp` — the map store.

Modelling conventions:
  * C++ `double` coordinates are embedded as exact rationals `Rat`.  All
    concrete inputs used in the theorems below are small integers, for which
    IEEE-754 double arithmetic (add, sub, mul, compare) is exact, so every
    comparison taken by the C++ on those inputs agrees with the rational
    model.  `Point2D::distanceTo` computes `sqrt(dx*dx+dy*dy)`; the program
    only ever compares distances with each other (where `sqrt` is strictly
    monotone) or with a nonnegative bound `r` (where `d <= r ↔ d² ≤ r²`),
    so the model compares squared distances and models `distanceTo(p) <= r`
    as `0 ≤ r ∧ sqDist ≤ r²`, which is exactly equivalent over the reals.
  * The node heap of the R-tree is embedded as an arena: nodes are addressed
    by their index in an array, a node's `parent` raw pointer becomes an
    `Option Nat`, and the `void* data` of an entry becomes a sum
    `RData = node id | item id` (distinct C++ pointer spaces).  In-place
    mutation becomes functional update of the arena.
  * Loops that walk parent pointers and the recursive split/query walks are
    not structurally terminating on arbitrary (corrupted) arenas, so they
    take fuel `nodes.size + 1`; on every state evaluated or reasoned about
    in the theorems the fuel is never exhausted (the C++ would dereference
    freely in the same situations).
-/

namespace HDMap

/-! ## Geometry primitives (types.cpp) -/

/-- Model of `Point2D` from `types.hpp`: a pair of (`double`) coordinates. -/
structure Point2D where
  x : Rat
  y : Rat
deriving DecidableEq, Repr, Inhabited

/-- Model of `BoundingBox` from `types.hpp`: `min_`/`max_` corner points. -/
structure BoundingBox where
  min : Point2D
  max : Point2D
deriving DecidableEq, Repr, Inhabited

/-- The square of `Point2D::distanceTo` (`dx*dx + dy*dy`); the program only
compares distances, and `sqrt` is strictly monotone, so comparisons of
squared distances model comparisons of distances exactly. -/
def sqDist (a b : Point2D) : Rat :=
  (a.x - b.x) * (a.x - b.x) + (a.y - b.y) * (a.y - b.y)

/-- Model of `a.distanceTo(b) <= r`: equivalent to `0 ≤ r ∧ sqDist ≤ r²`. -/
def distLe (a b : Point2D) (r : Rat) : Bool :=
  decide (0 ≤ r) && decide (sqDist a b ≤ r * r)

/-- Model of `BoundingBox::contains` (inclusive on all four edges). -/
def containsB (b : BoundingBox) (p : Point2D) : Bool :=
  decide (p.x ≥ b.min.x) && decide (p.x ≤ b.max.x) &&
  decide (p.y ≥ b.min.y) && decide (p.y ≤ b.max.y)

/-- Model of `BoundingBox::intersects`. -/
def intersectsB (a b : BoundingBox) : Bool :=
  !(decide (a.max.x < b.min.x) || decide (a.min.x > b.max.x) ||
    decide (a.max.y < b.min.y) || decide (a.min.y > b.max.y))

/-- Model of `BoundingBox::area`. -/
def areaB (b : BoundingBox) : Rat :=
  (b.max.x - b.min.x) * (b.max.y - b.min.y)

/-- Model of `BoundingBox::center`. -/
def centerB (b : BoundingBox) : Point2D :=
  ⟨(b.min.x + b.max.x) / 2, (b.min.y + b.max.y) / 2⟩

/-- Componentwise union of two boxes (the min/max folds that `rtree.cpp`
writes out by hand in `getBoundingBox` and `computeEnlargement`). -/
def unionB (a b : BoundingBox) : BoundingBox :=
  ⟨⟨min a.min.x b.min.x, min a.min.y b.min.y⟩,
   ⟨max a.max.x b.max.x, max a.max.y b.max.y⟩⟩

/-- The default-constructed `BoundingBox()` (all four doubles zero). -/
def zeroBox : BoundingBox := ⟨⟨0, 0⟩, ⟨0, 0⟩⟩

/-! ## R-tree (rtree.cpp) -/

/-- Model of `NodeType` from `rtree.hpp`. -/
inductive NodeType where
  | LEAF
  | INTERNAL
deriving DecidableEq, Repr, Inhabited

/-- The `void* data` of an `RTreeEntry`: either a child-node pointer
(arena index) or a pointer to a stored map element (an opaque item id).
The two constructors model the two distinct C++ pointer spaces. -/
inductive RData where
  | node (id : Nat)
  | item (id : Nat)
deriving DecidableEq, Repr, Inhabited

/-- Model of `RTreeEntry`: a bounding box plus a data pointer. -/
structure RTreeEntry where
  bbox : BoundingBox
  data : RData
deriving DecidableEq, Repr, Inhabited

/-- Model of `RTreeNode`: type tag, non-owning parent pointer, entry vector. -/
structure RTreeNode where
  type : NodeType
  parent : Option Nat
  entries : List RTreeEntry
deriving DecidableEq, Repr, Inhabited

/-- Constant `MAX_RTREE_ENTRIES` from `rtree.hpp`. -/
def MAX_RTREE_ENTRIES : Nat := 8

/-- The `RTree`: arena of nodes, root index, `elementCount_`. -/
structure RTree where
  nodes : Array RTreeNode
  root : Nat
  elementCount : Nat
deriving DecidableEq, Repr, Inhabited

namespace RTree

/-- Dereference a node pointer (arena index). -/
def nd (t : RTree) (i : Nat) : RTreeNode :=
  t.nodes.getD i default

/-- Replace the entry list of node `i`. -/
def setEntries (t : RTree) (i : Nat) (es : List RTreeEntry) : RTree :=
  { t with nodes := t.nodes.setD i { t.nd i with entries := es } }

/-- Replace the parent pointer of node `i`. -/
def setParent (t : RTree) (i : Nat) (p : Option Nat) : RTree :=
  { t with nodes := t.nodes.setD i { t.nd i with parent := p } }

/-- Model of `RTreeNode::getBoundingBox`: the union of the node's entry boxes,
`BoundingBox()` when the node is empty. -/
def nodeBB (t : RTree) (i : Nat) : BoundingBox :=
  match (t.nd i).entries with
  | [] => zeroBox
  | e :: rest => rest.foldl (fun acc e' => unionB acc e'.bbox) e.bbox

/-- Model of the constructor `RTree::RTree()`: a single empty leaf root. -/
def empty : RTree :=
  ⟨#[⟨NodeType.LEAF, none, []⟩], 0, 0⟩

/-- Model of `RTree::computeEnlargement`. -/
def computeEnlargement (existing addition : BoundingBox) : Rat :=
  areaB (unionB existing addition) - areaB existing

/-- One step of the `chooseLeaf` minimum search.  The accumulator's second
component is the best enlargement so far, `none` standing for the initial
`std::numeric_limits<double>::max()` sentinel (larger than any enlargement
that can actually arise). -/
def chooseStep (box : BoundingBox) (acc : Nat × Option Rat × Nat) (e : RTreeEntry) :
    Nat × Option Rat × Nat :=
  let (bestIdx, minE, i) := acc
  let enl := computeEnlargement e.bbox box
  match minE with
  | none => (i, some enl, i + 1)
  | some m => if enl < m then (i, some enl, i + 1) else (bestIdx, some m, i + 1)

/-- Model of `RTree::chooseLeaf`: descend from the root into the child with minimum
enlargement until a leaf is reached.  Fueled; if a descent step meets an
`item` pointer where a node pointer is expected (only possible in corrupted
states the C++ would also mishandle) the walk stops at the current node. -/
def chooseLeafAux (t : RTree) (box : BoundingBox) : Nat → Nat → Nat
  | 0, cur => cur
  | fuel + 1, cur =>
    if (t.nd cur).type = NodeType.LEAF then cur
    else
      let best := ((t.nd cur).entries.foldl (chooseStep box) (0, none, 0)).1
      match ((t.nd cur).entries.getD best default).data with
      | RData.node child => chooseLeafAux t box fuel child
      | RData.item _ => cur

def chooseLeaf (t : RTree) (box : BoundingBox) : Nat :=
  chooseLeafAux t box (t.nodes.size + 1) t.root

/-- The body of the `adjustTree` for-loop: update the bbox of the first
entry of node `pid` whose data pointer equals node `cur`, then `break`. -/
def updateFirst (es : List RTreeEntry) (cur : Nat) (bb : BoundingBox) :
    List RTreeEntry :=
  match es with
  | [] => []
  | e :: rest =>
    if e.data = RData.node cur then { e with bbox := bb } :: rest
    else e :: updateFirst rest cur bb

/-- Model of `RTree::adjustTree`: walk parent pointers from `leaf` to the root,
refreshing the parent entry for the child just traversed.  Fueled; a `none`
parent below the root stops the walk (the C++ would dereference null). -/
def adjustTreeAux (t : RTree) : Nat → Nat → RTree
  | 0, _ => t
  | fuel + 1, cur =>
    if cur = t.root then t
    else
      match (t.nd cur).parent with
      | none => t
      | some pid =>
        let t' := t.setEntries pid (updateFirst (t.nd pid).entries cur (t.nodeBB cur))
        adjustTreeAux t' fuel pid

def adjustTree (t : RTree) (leaf : Nat) : RTree :=
  adjustTreeAux t (t.nodes.size + 1) leaf

/-- Inner loop of the seed search in `splitNode`: for a fixed `i`, scan
`j = i+1 .. n-1`.  The accumulator is `(seed1, seed2, maxDistance²)`;
squared distances model the `center1.distanceTo(center2)` comparisons
exactly (`sqrt` is strictly monotone and `maxDistance` starts at `0`). -/
def seedScanJ (allE : List RTreeEntry) (i : Nat) (acc : Nat × Nat × Rat) (j : Nat) :
    Nat × Nat × Rat :=
  let (s1, s2, maxD) := acc
  let d := sqDist (centerB (allE.getD i default).bbox) (centerB (allE.getD j default).bbox)
  if d > maxD then (i, j, d) else (s1, s2, maxD)

/-- The full pairwise seed scan of `splitNode` (seeds start as `(0, 1)`,
`maxDistance` as `0`). -/
def pickSeeds (allE : List RTreeEntry) : Nat × Nat :=
  let n := allE.length
  let r := (List.range n).foldl
    (fun acc i => ((List.range n).drop (i + 1)).foldl (seedScanJ allE i) acc)
    (0, 1, (0 : Rat))
  (r.1, r.2.1)

/-- The body of the distribution loop in `splitNode`: a non-seed entry goes
to whichever of the two nodes needs the smaller enlargement, the **new**
node on ties (`enlarge1 < enlarge2` sends it to the original node, every
other case to the new one). -/
def distribStep (nid newId s1 s2 : Nat) (t : RTree) (ie : Nat × RTreeEntry) : RTree :=
  if ie.1 = s1 ∨ ie.1 = s2 then t
  else
    let e1 := computeEnlargement (t.nodeBB nid) ie.2.bbox
    let e2 := computeEnlargement (t.nodeBB newId) ie.2.bbox
    if e1 < e2 then t.setEntries nid ((t.nd nid).entries ++ [ie.2])
    else t.setEntries newId ((t.nd newId).entries ++ [ie.2])

/-- The distribution loop of `splitNode` over all (indexed) entries. -/
def distributeAll (t : RTree) (nid newId : Nat) (allE : List RTreeEntry)
    (s1 s2 : Nat) : RTree :=
  allE.enum.foldl (distribStep nid newId s1 s2) t

/-- Model of `RTree::splitNode`.  Fueled for the recursive ascent into a full
parent (the chain length is bounded by the arena size on every state the
theorems evaluate). -/
def splitNodeAux (t : RTree) : Nat → Nat → RTreeEntry → RTree
  | 0, _, _ => t
  | fuel + 1, nid, newEntry =>
    let n := t.nd nid
    let allE := n.entries ++ [newEntry]
    let (s1, s2) := pickSeeds allE
    let newId := t.nodes.size
    let t1 := { t with nodes := t.nodes.push ⟨n.type, n.parent, []⟩ }
    let t2 := t1.setEntries nid [allE.getD s1 default]
    let t3 := t2.setEntries newId [allE.getD s2 default]
    let t4 := distributeAll t3 nid newId allE s1 s2
    let t5 :=
      if nid = t4.root then
        let rootId := t4.nodes.size
        let newRootNode : RTreeNode :=
          ⟨NodeType.INTERNAL, none,
            [⟨t4.nodeBB nid, RData.node nid⟩, ⟨t4.nodeBB newId, RData.node newId⟩]⟩
        let tr := { t4 with nodes := t4.nodes.push newRootNode }
        let tr := tr.setParent nid rootId
        let tr := tr.setParent newId rootId
        { tr with root := rootId }
      else
        match n.parent with
        | none => t4
        | some pid =>
          let pe : RTreeEntry := ⟨t4.nodeBB newId, RData.node newId⟩
          if (t4.nd pid).entries.length < MAX_RTREE_ENTRIES then
            t4.setEntries pid ((t4.nd pid).entries ++ [pe])
          else
            splitNodeAux t4 fuel pid pe
    adjustTree t5 nid

def splitNode (t : RTree) (nid : Nat) (newEntry : RTreeEntry) : RTree :=
  splitNodeAux t (t.nodes.size + 1) nid newEntry

/-- Model of `RTree::insert`. -/
def insert (t : RTree) (box : BoundingBox) (data : RData) : RTree :=
  let entry : RTreeEntry := ⟨box, data⟩
  if (t.nd t.root).entries = [] then
    { t.setEntries t.root [entry] with elementCount := t.elementCount + 1 }
  else
    let leaf := t.chooseLeaf box
    let t' :=
      if (t.nd leaf).entries.length < MAX_RTREE_ENTRIES then
        adjustTree (t.setEntries leaf ((t.nd leaf).entries ++ [entry])) leaf
      else
        splitNode t leaf entry
    { t' with elementCount := t'.elementCount + 1 }

/-- Model of `RTree::queryNode`: recursive descent collecting leaf entry data in
traversal order; subtrees whose entry bbox misses the query box are pruned.
Fueled; an `item` pointer met in an internal node is skipped (the C++
would cast it to a node and misbehave — unreachable in evaluated states). -/
def queryNodeAux (t : RTree) (q : BoundingBox) :
    Nat → Nat → List RData → List RData
  | 0, _, acc => acc
  | fuel + 1, nid, acc =>
    (t.nd nid).entries.foldl
      (fun acc e =>
        if intersectsB e.bbox q then
          if (t.nd nid).type = NodeType.LEAF then acc ++ [e.data]
          else
            match e.data with
            | RData.node child => queryNodeAux t q fuel child acc
            | RData.item _ => acc
        else acc)
      acc

/-- Model of `RTree::query`. -/
def query (t : RTree) (q : BoundingBox) : List RData :=
  queryNodeAux t q (t.nodes.size + 1) t.root []

/-- Model of `RTree::queryRadius`: query the axis-aligned square around the center. -/
def queryRadius (t : RTree) (c : Point2D) (r : Rat) : List RData :=
  query t ⟨⟨c.x - r, c.y - r⟩, ⟨c.x + r, c.y + r⟩⟩

/-- Model of `RTree::clear`: descendants are freed, the root's entry vector is
cleared, the element count reset — but the root node keeps its `type` (and
its parent pointer, which is null on every reachable root). -/
def clear (t : RTree) : RTree :=
  ⟨#[⟨(t.nd t.root).type, (t.nd t.root).parent, []⟩], 0, 0⟩

/-- Model of `RTree::size`. -/
def size (t : RTree) : Nat := t.elementCount

/-- The tightness invariant of spec §8 / claim C2, as an executable check:
every entry of every internal node reachable from the root carries exactly
the union of its child's entry boxes. -/
def tightAux (t : RTree) : Nat → Nat → Bool
  | 0, _ => true
  | fuel + 1, nid =>
    if (t.nd nid).type = NodeType.LEAF then true
    else
      (t.nd nid).entries.all fun e =>
        match e.data with
        | RData.node child => decide (e.bbox = t.nodeBB child) && tightAux t fuel child
        | RData.item _ => false

def tight (t : RTree) : Bool :=
  tightAux t (t.nodes.size + 1) t.root

/-- A tree whose arena is a single leaf root holding `es` — the state of a
fresh tree after `es.length ≤ MAX_RTREE_ENTRIES` inserts (no split can
have happened yet). -/
def singleLeaf (es : List RTreeEntry) : RTree :=
  ⟨#[⟨NodeType.LEAF, none, es⟩], 0, es.length⟩

end RTree

/-! ## Entity records (types.hpp / types.cpp) -/

/-- Model of `Lane` from `types.hpp`.  The enum `LaneType` is embedded as a plain
tag; `uint64_t` ids as `Nat`. -/
structure Lane where
  id : Nat
  laneType : Nat
  centerline : List Point2D
  leftBoundary : List Point2D
  rightBoundary : List Point2D
  predecessorIds : List Nat
  successorIds : List Nat
  adjacentLeftIds : List Nat
  adjacentRightIds : List Nat
  speedLimit : Rat
  bbox : BoundingBox
deriving DecidableEq, Repr, Inhabited

/-- Model of `TrafficLight` from `types.hpp` (`TrafficLightState` as a tag). -/
structure TrafficLight where
  id : Nat
  position : Point2D
  state : Nat
  controlledLaneIds : List Nat
  height : Rat
deriving DecidableEq, Repr, Inhabited

/-- Model of `TrafficSign` from `types.hpp`.  The stored `std::string value_` enters
the claims only through `value_.capacity()` (in `getMemoryUsage`), so the
record keeps the capacity of the stored string object. -/
structure TrafficSign where
  id : Nat
  position : Point2D
  signType : Nat
  valueCapacity : Nat
  affectedLaneIds : List Nat
  height : Rat
deriving DecidableEq, Repr, Inhabited

/-- One min/max accumulation loop of `Lane::computeBoundingBox`
(the state is `(minX, maxX, minY, maxY)`). -/
def foldPts (acc : Rat × Rat × Rat × Rat) (ps : List Point2D) :
    Rat × Rat × Rat × Rat :=
  ps.foldl
    (fun a p => (min a.1 p.x, max a.2.1 p.x, min a.2.2.1 p.y, max a.2.2.2 p.y))
    acc

/-- Model of `Lane::computeBoundingBox` from `types.cpp`: an empty centerline yields
the default `BoundingBox()` — the boundary polylines are ignored in that
case; otherwise min/max over centerline, then left, then right boundary. -/
def computeBoundingBox (l : Lane) : BoundingBox :=
  match l.centerline with
  | [] => zeroBox
  | p0 :: _ =>
    let st := foldPts (p0.x, p0.x, p0.y, p0.y) l.centerline
    let st := foldPts st l.leftBoundary
    let st := foldPts st l.rightBoundary
    ⟨⟨st.1, st.2.2.1⟩, ⟨st.2.1, st.2.2.2⟩⟩

/-- Model of `QueryResult` from `types.hpp`. -/
structure QueryResult where
  lanes : List Lane
  trafficLights : List TrafficLight
  trafficSigns : List TrafficSign
deriving DecidableEq, Repr, Inhabited

/-! ## Map store (map_server.hpp / map_server.cpp) -/

/-- Model of `MemoryConstraints` from `map_server.hpp`. -/
structure MemoryConstraints where
  maxTotalMemory : Nat
  maxLanes : Nat
  maxTrafficLights : Nat
  maxTrafficSigns : Nat
deriving DecidableEq, Repr, Inhabited

/-- Model of `MemoryConstraints::defaultConstraints()`. -/
def defaultConstraints : MemoryConstraints :=
  ⟨64 * 1024 * 1024, 10000, 5000, 5000⟩

/-- The `MapServer` state.  The three `std::unordered_map<uint64_t, …>`
stores are embedded as lists in iteration order (iteration order of an
`unordered_map` is unspecified, so any fixed order is a legitimate
instance; the entity pointers stored in the index become positions in
these lists). -/
structure MapServer where
  constraints : MemoryConstraints
  lanes : List Lane
  trafficLights : List TrafficLight
  trafficSigns : List TrafficSign
  laneIndex : RTree
  trafficLightIndex : RTree
  trafficSignIndex : RTree
deriving DecidableEq, Repr, Inhabited

namespace MapServer

/-- A freshly constructed `MapServer`. -/
def fresh (c : MemoryConstraints) : MapServer :=
  ⟨c, [], [], [], RTree.empty, RTree.empty, RTree.empty⟩

/- Typical LP64 / libstdc++ values of the `sizeof` constants appearing in
`MapServer::getMemoryUsage`.  The C8 proofs do not depend on the exact
figures, only on their being fixed. -/

def sizeofLane : Nat := 224
def sizeofPoint2D : Nat := 16
def sizeofUInt64 : Nat := 8
def sizeofTrafficLight : Nat := 64
def sizeofTrafficSign : Nat := 96

/-- Per-lane summand of `getMemoryUsage`. -/
def laneCost (l : Lane) : Nat :=
  sizeofLane + l.centerline.length * sizeofPoint2D +
  l.leftBoundary.length * sizeofPoint2D + l.rightBoundary.length * sizeofPoint2D +
  l.predecessorIds.length * sizeofUInt64 + l.successorIds.length * sizeofUInt64 +
  l.adjacentLeftIds.length * sizeofUInt64 + l.adjacentRightIds.length * sizeofUInt64

/-- Per-light variable summand of `getMemoryUsage`. -/
def lightCost (x : TrafficLight) : Nat :=
  x.controlledLaneIds.length * sizeofUInt64

/-- Per-sign variable summand of `getMemoryUsage`
(`value_.capacity()` plus the affected-lane list). -/
def signCost (x : TrafficSign) : Nat :=
  x.valueCapacity + x.affectedLaneIds.length * sizeofUInt64

/-- Model of `MapServer::getMemoryUsage`. -/
def getMemoryUsage (s : MapServer) : Nat :=
  (s.lanes.map laneCost).sum +
  s.trafficLights.length * sizeofTrafficLight + (s.trafficLights.map lightCost).sum +
  s.trafficSigns.length * sizeofTrafficSign + (s.trafficSigns.map signCost).sum +
  (s.laneIndex.size + s.trafficLightIndex.size + s.trafficSignIndex.size) * 64

/-- Model of `MapServer::checkMemoryConstraints`. -/
def checkMemoryConstraints (s : MapServer) : Bool :=
  if s.lanes.length > s.constraints.maxLanes then false
  else if s.trafficLights.length > s.constraints.maxTrafficLights then false
  else if s.trafficSigns.length > s.constraints.maxTrafficSigns then false
  else decide (getMemoryUsage s ≤ s.constraints.maxTotalMemory)

/-- Model of `MapServer::clear`. -/
def clearServer (s : MapServer) : MapServer :=
  { s with
    lanes := []
    trafficLights := []
    trafficSigns := []
    laneIndex := s.laneIndex.clear
    trafficLightIndex := s.trafficLightIndex.clear
    trafficSignIndex := s.trafficSignIndex.clear }

/-- Model of `MapServer::buildSpatialIndices`: recompute every lane's bbox and
insert each entity into its kind's (cleared) index, in store order; light
and sign boxes are degenerate boxes at the entity position. -/
def buildSpatialIndices (s : MapServer) : MapServer :=
  let lanes' := s.lanes.map fun l => { l with bbox := computeBoundingBox l }
  let laneIdx := lanes'.enum.foldl
    (fun t (il : Nat × Lane) => t.insert il.2.bbox (RData.item il.1))
    s.laneIndex.clear
  let lightIdx := s.trafficLights.enum.foldl
    (fun t (ix : Nat × TrafficLight) =>
      t.insert ⟨ix.2.position, ix.2.position⟩ (RData.item ix.1))
    s.trafficLightIndex.clear
  let signIdx := s.trafficSigns.enum.foldl
    (fun t (ix : Nat × TrafficSign) =>
      t.insert ⟨ix.2.position, ix.2.position⟩ (RData.item ix.1))
    s.trafficSignIndex.clear
  { s with
    lanes := lanes'
    laneIndex := laneIdx
    trafficLightIndex := lightIdx
    trafficSignIndex := signIdx }

/-- The three record collections handed over by the ingestion collaborator
(spec §1/§6: parsing is external to the core; `loadFromFile` is modelled
from the point where the parser has successfully filled the stores). -/
structure MapInput where
  lanes : List Lane
  lights : List TrafficLight
  signs : List TrafficSign
deriving DecidableEq, Repr, Inhabited

/-- The state of the store right after `clear()` and a successful parse
has filled the three collections (the ingestion step of `loadFromFile`). -/
def populate (s : MapServer) (input : MapInput) : MapServer :=
  { clearServer s with
    lanes := input.lanes
    trafficLights := input.lights
    trafficSigns := input.signs }

/-- Model of `MapServer::loadFromFile` after a successful parse: clear, populate,
check the budget (clearing again and failing on violation), then build the
spatial indices. -/
def loadMap (s : MapServer) (input : MapInput) : Bool × MapServer :=
  let s2 := populate s input
  if checkMemoryConstraints s2 then (true, buildSpatialIndices s2)
  else (false, clearServer s2)

/-- Turn the `void*` results of a lane-index query back into lanes
(`static_cast<Lane*>`): `item i` is the address of the `i`-th stored
lane. -/
def derefLanes (s : MapServer) (ds : List RData) : List Lane :=
  ds.filterMap fun d =>
    match d with
    | RData.item i => s.lanes.get? i
    | RData.node _ => none

def derefLights (s : MapServer) (ds : List RData) : List TrafficLight :=
  ds.filterMap fun d =>
    match d with
    | RData.item i => s.trafficLights.get? i
    | RData.node _ => none

def derefSigns (s : MapServer) (ds : List RData) : List TrafficSign :=
  ds.filterMap fun d =>
    match d with
    | RData.item i => s.trafficSigns.get? i
    | RData.node _ => none

/-- Model of `MapServer::queryRegion`. -/
def queryRegion (s : MapServer) (region : BoundingBox) : QueryResult :=
  ⟨derefLanes s (s.laneIndex.query region),
   derefLights s (s.trafficLightIndex.query region),
   derefSigns s (s.trafficSignIndex.query region)⟩

/-- Model of `MapServer::queryRadius`: broad-phase index query on the enclosing
square, then the exact narrow-phase filter (`distanceTo <= radius` on any
centerline point for lanes, on the position for lights and signs). -/
def queryRadius (s : MapServer) (c : Point2D) (r : Rat) : QueryResult :=
  ⟨(derefLanes s (s.laneIndex.queryRadius c r)).filter
      (fun l => l.centerline.any fun p => distLe c p r),
   (derefLights s (s.trafficLightIndex.queryRadius c r)).filter
      (fun x => distLe c x.position r),
   (derefSigns s (s.trafficSignIndex.queryRadius c r)).filter
      (fun x => distLe c x.position r)⟩

/-- Model of `MapServer::getLaneById` (map lookup by key). -/
def getLaneById (s : MapServer) (laneId : Nat) : Option Lane :=
  s.lanes.find? fun l => l.id = laneId

/-- Model of `MapServer::getNearbyLanes`. -/
def getNearbyLanes (s : MapServer) (pos : Point2D) (maxDistance : Rat) : List Lane :=
  (queryRadius s pos maxDistance).lanes

/-- One comparison step of the closest-lane scan.  The second accumulator
component is the squared `minDistance`, `none` standing for the initial
`std::numeric_limits<double>::max()` sentinel. -/
def scanStep (pos : Point2D) (acc : Option Lane × Option Rat) (lp : Lane × Point2D) :
    Option Lane × Option Rat :=
  match acc.2 with
  | none => (some lp.1, some (sqDist pos lp.2))
  | some m =>
    if sqDist pos lp.2 < m then (some lp.1, some (sqDist pos lp.2)) else acc

/-- The nested candidate/centerline scan of `getClosestLane`. -/
def scanClosest (pos : Point2D) (cands : List Lane) : Option Lane :=
  (cands.foldl
    (fun acc l => l.centerline.foldl (fun a p => scanStep pos a (l, p)) acc)
    (none, none)).1

/-- Model of `MapServer::getClosestLane`: 50 m search, 200 m retry only when the
first stage is empty, `nullopt` when both are; otherwise the scan result —
wrapped exactly as the C++ does (`return closestLane;` engages the optional
even when the scan found no point, hence the nested `Option`). -/
def getClosestLane (s : MapServer) (pos : Point2D) : Option (Option Lane) :=
  let candidates := getNearbyLanes s pos 50
  if candidates.isEmpty then
    let candidates := getNearbyLanes s pos 200
    if candidates.isEmpty then none
    else some (scanClosest pos candidates)
  else some (scanClosest pos candidates)

/-- Model of `MapServer::getLaneCount`. -/
def getLaneCount (s : MapServer) : Nat := s.lanes.length

/-- Model of `MapServer::getTrafficLightCount`. -/
def getTrafficLightCount (s : MapServer) : Nat := s.trafficLights.length

/-- Model of `MapServer::getTrafficSignCount`. -/
def getTrafficSignCount (s : MapServer) : Nat := s.trafficSigns.length

end MapServer

/-! ## Concrete instances used by the claim theorems -/

/-- Degenerate point box. -/
def ptBox (x y : Rat) : BoundingBox := ⟨⟨x, y⟩, ⟨x, y⟩⟩

/-- Diagonal box number `i` — exactly the box family of the repository's
own `ManyInsertions` test (`test_rtree.cpp`):
`(10i, 10i)-(10i+5, 10i+5)`. -/
def diagBox (i : Nat) : BoundingBox :=
  ⟨⟨10 * i, 10 * i⟩, ⟨10 * i + 5, 10 * i + 5⟩⟩

/-- Insert the first `n` diagonal boxes into a fresh tree, in order. -/
def buildDiag (n : Nat) : RTree :=
  (List.range n).foldl (fun t i => t.insert (diagBox i) (RData.item i)) RTree.empty

/-- Insert `n` collinear unit-spaced points `(i, 0)` into a fresh tree. -/
def buildCollinear (n : Nat) : RTree :=
  (List.range n).foldl (fun t (i : Nat) => t.insert (ptBox i 0) (RData.item i)) RTree.empty

/-- Build an arbitrary entry sequence into a fresh tree. -/
def buildEntries (es : List (BoundingBox × RData)) : RTree :=
  es.foldl (fun t e => t.insert e.1 e.2) RTree.empty

/-- Lane record with the given id and centerline and everything else
defaulted (the fields a parsed lane record carries before the build pass). -/
def mkLane (i : Nat) (cl : List Point2D) : Lane :=
  ⟨i, 0, cl, [], [], [], [], [], [], 0, zeroBox⟩

/-- Map input of claim C6: 52 lanes whose centerlines are the two corner
points of the diagonal boxes, in id order. -/
def c6Lanes : List Lane :=
  (List.range 52).map fun i =>
    mkLane i [⟨10 * i, 10 * i⟩, ⟨10 * i + 5, 10 * i + 5⟩]

/-- Map store of claim C6 after a successful `loadFromFile`. -/
def c6Server : MapServer :=
  (MapServer.loadMap (MapServer.fresh defaultConstraints) ⟨c6Lanes, [], []⟩).2

/-- Lane family of claim C9: the diagonal lanes shifted so that lane `51`
sits at the origin — with an **empty centerline** and a non-empty left
boundary, so its derived bbox is the degenerate origin box. -/
def c9Lane (i : Nat) : Lane :=
  if i = 51 then { mkLane 51 [] with leftBoundary := [⟨7, 7⟩] }
  else
    mkLane i [⟨10 * (i : Int) - 510, 10 * (i : Int) - 510⟩,
              ⟨10 * (i : Int) - 505, 10 * (i : Int) - 505⟩]

/-- Map store of claim C9, after the index build pass on a fresh server. -/
def c9Built : MapServer :=
  MapServer.buildSpatialIndices
    { MapServer.fresh defaultConstraints with lanes := (List.range 52).map c9Lane }

/-- Two-lane map of the spec's `getClosestLane` example: lane `100` with
centerline `[(0,0),(100,0)]` and lane `101` with `[(0,100),(100,100)]`. -/
def c7Lanes : List Lane :=
  [mkLane 100 [⟨0, 0⟩, ⟨100, 0⟩], mkLane 101 [⟨0, 100⟩, ⟨100, 100⟩]]

/-- Map store of the `getClosestLane` example after a successful load. -/
def c7Server : MapServer :=
  (MapServer.loadMap (MapServer.fresh defaultConstraints) ⟨c7Lanes, [], []⟩).2

/-- Concrete traffic light for the C8 witness. -/
def c8WLight : TrafficLight := ⟨10, ⟨1, 2⟩, 0, [], 5⟩

/-- Concrete traffic sign for the C8 witness. -/
def c8WSign : TrafficSign := ⟨20, ⟨2, 3⟩, 0, 2, [], 5⟩

/-- Concrete one-entity-per-kind store for the C8 witness. -/
def c8WServer : MapServer :=
  { MapServer.fresh defaultConstraints with
    lanes := [mkLane 1 []]
    trafficLights := [c8WLight]
    trafficSigns := [c8WSign] }

/-- A fresh store populated with the given collections (the first-load
state that `buildSpatialIndices` runs on). -/
def mkStore (cfg : MemoryConstraints) (lanes : List Lane)
    (lights : List TrafficLight) (signs : List TrafficSign) : MapServer :=
  { MapServer.fresh cfg with
    lanes := lanes
    trafficLights := lights
    trafficSigns := signs }

/-- Single empty-centerline lane (with a non-empty boundary) for the C9
witness. -/
def c9WLane : Lane := { mkLane 5 [] with leftBoundary := [⟨3, 3⟩] }

end HDMap

namespace HDMap

/- Batteries marks the `Rat` arithmetic operations `@[irreducible]`, which
only blocks elaborator-side reduction; re-allow it so that `decide` can
evaluate the model (the kernel is unaffected either way). -/
attribute [local semireducible] Rat.add Rat.mul Rat.sub Rat.inv

set_option maxRecDepth 8000000

/-- C1 (code bug): after inserting the 52 diagonal boxes of the
repository's own `ManyInsertions` test pattern, a region query with the
52nd box itself — which certainly intersects that box — does **not**
return the 52nd entry: the index has a false negative.  (`splitNode`
redistributes the children of a full internal node without updating their
`parent` back-pointers, so a later `adjustTree` walk misses the entry
whose bbox it should have widened.) -/
theorem c1_query_false_negative :
    intersectsB (diagBox 51) (diagBox 51) = true ∧
    RData.item 51 ∉ RTree.query (buildDiag 52) (diagBox 51) := by
  constructor
  · decide
  · decide

/-- C2 (code bug): after the 51-insert prefix of the same diagonal
sequence, the tightness invariant is already broken: some internal entry's
bbox differs from the componentwise union of its child's entry boxes. -/
theorem c2_tightness_violated :
    RTree.tight (buildDiag 51) = false := by decide

/-- C4 counterexample: after nine collinear point inserts the root has
split and become INTERNAL; `clear()` empties it but does **not** reset it
to a LEAF root, contradicting the claim's "single empty LEAF root". -/
theorem c4_clear_keeps_internal_root :
    ((RTree.clear (buildCollinear 9)).nd (RTree.clear (buildCollinear 9)).root).type
      = NodeType.INTERNAL ∧
    NodeType.INTERNAL ≠ NodeType.LEAF := by
  constructor
  · decide
  · decide

/-- C5 counterexample: in the split triggered by the ninth collinear
insert, every non-seed entry ties (equal — in fact zero — area enlargement
for both sides, witnessed here for entry 1 against the two seed boxes),
yet **all** of them are placed in the freshly created sibling node (node
`1`), leaving the original node (node `0`) with only its seed: ties do not
favor the original node. -/
theorem c5_ties_go_to_new_node :
    (RTree.computeEnlargement (ptBox 0 0) (ptBox 1 0)
       < RTree.computeEnlargement (ptBox 8 0) (ptBox 1 0)) = False ∧
    (RTree.computeEnlargement (ptBox 8 0) (ptBox 1 0)
       < RTree.computeEnlargement (ptBox 0 0) (ptBox 1 0)) = False ∧
    ((buildCollinear 9).nd 0).entries.map (fun e => e.data) = [RData.item 0] ∧
    ((buildCollinear 9).nd 1).entries.length = 8 ∧
    RData.item 1 ∈ ((buildCollinear 9).nd 1).entries.map (fun e => e.data) := by
  refine ⟨by decide, by decide, by decide, by decide, by decide⟩

/-- C6 (code bug): the C6 map loads successfully, lane 51's stored
centerline starts at `(510,510)` — within distance 1 of the query center
`(510,510)` — yet `queryRadius((510,510), 1)` returns **no** lanes: the
broad phase inherits the index's false negative, so the two-phase radius
query is not exact. -/
theorem c6_radius_query_misses_lane :
    (MapServer.loadMap (MapServer.fresh defaultConstraints) ⟨c6Lanes, [], []⟩).1 = true ∧
    (∃ l, MapServer.getLaneById c6Server 51 = some l ∧
      l.centerline.any (fun p => distLe ⟨510, 510⟩ p 1) = true) ∧
    (MapServer.queryRadius c6Server ⟨510, 510⟩ 1).lanes = [] := by
  refine ⟨by decide, ⟨c6Server.lanes.getD 51 default, by decide, by decide⟩, by decide⟩

/-- C9 counterexample: lane 51 of the C9 map has an empty centerline and a
non-empty left boundary, so its derived bbox is the degenerate origin box
and it is inserted at the origin — but a region query whose box contains
`(0,0)` does **not** return it (the index's stale-parent defect prunes
it), refuting the claim's final "is returned by region queries whose box
contains the point (0,0)". -/
theorem c9_origin_lane_not_returned :
    (c9Lane 51).centerline = [] ∧
    (c9Lane 51).leftBoundary ≠ [] ∧
    computeBoundingBox (c9Lane 51) = zeroBox ∧
    containsB ⟨⟨-1, -1⟩, ⟨1, 1⟩⟩ ⟨0, 0⟩ = true ∧
    (MapServer.queryRegion c9Built ⟨⟨-1, -1⟩, ⟨1, 1⟩⟩).lanes.all
      (fun l => decide (l.id ≠ 51)) = true := by
  refine ⟨by decide, by decide, by decide, by decide, by decide⟩

/-! ## Element-count bookkeeping of the R-tree mutators -/

namespace RTree

theorem setEntries_elementCount (t : RTree) (i : Nat) (es : List RTreeEntry) :
    (t.setEntries i es).elementCount = t.elementCount := rfl

theorem setParent_elementCount (t : RTree) (i : Nat) (p : Option Nat) :
    (t.setParent i p).elementCount = t.elementCount := rfl

theorem distribStep_elementCount (nid newId s1 s2 : Nat) (t : RTree)
    (ie : Nat × RTreeEntry) :
    (distribStep nid newId s1 s2 t ie).elementCount = t.elementCount := by
  simp only [distribStep]
  split
  · rfl
  · split <;> rfl

theorem foldl_distribStep_elementCount (nid newId s1 s2 : Nat)
    (L : List (Nat × RTreeEntry)) (t : RTree) :
    (L.foldl (distribStep nid newId s1 s2) t).elementCount = t.elementCount := by
  induction L generalizing t with
  | nil => rfl
  | cons a L ih =>
    rw [List.foldl_cons, ih, distribStep_elementCount]

theorem distributeAll_elementCount (t : RTree) (nid newId : Nat)
    (allE : List RTreeEntry) (s1 s2 : Nat) :
    (distributeAll t nid newId allE s1 s2).elementCount = t.elementCount :=
  foldl_distribStep_elementCount ..

theorem adjustTreeAux_elementCount (fuel : Nat) :
    ∀ (t : RTree) (cur : Nat),
      (adjustTreeAux t fuel cur).elementCount = t.elementCount := by
  induction fuel with
  | zero => intro t cur; rfl
  | succ fuel ih =>
    intro t cur
    unfold adjustTreeAux
    split
    · rfl
    · split
      · rfl
      · rw [ih, setEntries_elementCount]

theorem adjustTree_elementCount (t : RTree) (leaf : Nat) :
    (adjustTree t leaf).elementCount = t.elementCount :=
  adjustTreeAux_elementCount ..

theorem splitNodeAux_elementCount (fuel : Nat) :
    ∀ (t : RTree) (nid : Nat) (e : RTreeEntry),
      (splitNodeAux t fuel nid e).elementCount = t.elementCount := by
  induction fuel with
  | zero => intro t nid e; rfl
  | succ fuel ih =>
    intro t nid e
    unfold splitNodeAux
    rw [adjustTree_elementCount]
    split
    · simp only [setParent_elementCount, distributeAll_elementCount,
        setEntries_elementCount]
    · split
      · rw [distributeAll_elementCount, setEntries_elementCount,
          setEntries_elementCount]
      · split
        · rw [setEntries_elementCount, distributeAll_elementCount,
            setEntries_elementCount, setEntries_elementCount]
        · rw [ih, distributeAll_elementCount, setEntries_elementCount,
            setEntries_elementCount]

theorem splitNode_elementCount (t : RTree) (nid : Nat) (e : RTreeEntry) :
    (splitNode t nid e).elementCount = t.elementCount :=
  splitNodeAux_elementCount ..

/-- Every `insert` call increments `elementCount_` by exactly one. -/
theorem insert_elementCount (t : RTree) (b : BoundingBox) (d : RData) :
    (t.insert b d).elementCount = t.elementCount + 1 := by
  simp only [insert]
  split
  · rfl
  · split
    · simp only [adjustTree_elementCount, setEntries_elementCount]
    · simp only [splitNode_elementCount]

/-- After any sequence of inserts into a fresh tree, `size()` equals the
number of inserts. -/
theorem buildEntries_size (es : List (BoundingBox × RData)) :
    (buildEntries es).elementCount = es.length := by
  have aux : ∀ (L : List (BoundingBox × RData)) (t : RTree),
      (L.foldl (fun t e => t.insert e.1 e.2) t).elementCount
        = t.elementCount + L.length := by
    intro L
    induction L with
    | nil => intro t; rfl
    | cons a L ih =>
      intro t
      rw [List.foldl_cons, ih, insert_elementCount, List.length_cons]
      omega
  rw [buildEntries, aux]
  show 0 + es.length = es.length
  omega

/-- A query on a cleared tree returns nothing (the root has no entries). -/
theorem query_clear (t : RTree) (q : BoundingBox) :
    (t.clear).query q = [] := rfl

end RTree

/-- C4 (amended): `clear()` leaves a single empty root with `size() = 0`
and every region query empty, and **preserves the root's node type**
(rather than resetting it to LEAF); independently, `size()` after any
sequence of `n` inserts into a fresh tree is `n`. -/
theorem c4_amended_clear_and_size (t : RTree) (q : BoundingBox)
    (es : List (BoundingBox × RData)) :
    RTree.size (RTree.clear t) = 0 ∧
    RTree.query (RTree.clear t) q = [] ∧
    ((RTree.clear t).nd (RTree.clear t).root).type = (t.nd t.root).type ∧
    (buildEntries es).elementCount = es.length :=
  ⟨rfl, RTree.query_clear t q, rfl, RTree.buildEntries_size es⟩

/-! ## The cleared map store serves only empty answers -/

namespace MapServer

theorem queryRegion_clearServer (s : MapServer) (b : BoundingBox) :
    queryRegion (clearServer s) b = ⟨[], [], []⟩ := rfl

theorem queryRadius_clearServer (s : MapServer) (c : Point2D) (r : Rat) :
    queryRadius (clearServer s) c r = ⟨[], [], []⟩ := rfl

theorem getClosestLane_clearServer (s : MapServer) (c : Point2D) :
    getClosestLane (clearServer s) c = none := rfl

end MapServer

/-- C3: a load whose input exceeds any of the configured count limits, or
whose populated store's estimated memory exceeds the memory limit, fails
and leaves the store empty: all three counts are `0` and region, radius
and closest-lane queries all come back empty. -/
theorem c3_overbudget_load_fails_and_clears
    (s : MapServer) (input : MapServer.MapInput)
    (b : BoundingBox) (c : Point2D) (r : Rat)
    (h : input.lanes.length > s.constraints.maxLanes ∨
         input.lights.length > s.constraints.maxTrafficLights ∨
         input.signs.length > s.constraints.maxTrafficSigns ∨
         MapServer.getMemoryUsage (MapServer.populate s input)
           > s.constraints.maxTotalMemory) :
    (MapServer.loadMap s input).1 = false ∧
    MapServer.getLaneCount (MapServer.loadMap s input).2 = 0 ∧
    MapServer.getTrafficLightCount (MapServer.loadMap s input).2 = 0 ∧
    MapServer.getTrafficSignCount (MapServer.loadMap s input).2 = 0 ∧
    MapServer.queryRegion (MapServer.loadMap s input).2 b = ⟨[], [], []⟩ ∧
    MapServer.queryRadius (MapServer.loadMap s input).2 c r = ⟨[], [], []⟩ ∧
    MapServer.getClosestLane (MapServer.loadMap s input).2 c = none := by
  have hch : MapServer.checkMemoryConstraints (MapServer.populate s input) = false := by
    unfold MapServer.checkMemoryConstraints
    have hc : (MapServer.populate s input).constraints = s.constraints := rfl
    rw [hc]
    split_ifs with h1 h2 h3
    · rfl
    · rfl
    · rfl
    · rcases h with h | h | h | h
      · exact absurd h h1
      · exact absurd h h2
      · exact absurd h h3
      · exact decide_eq_false (by omega)
  have hload : MapServer.loadMap s input
      = (false, MapServer.clearServer (MapServer.populate s input)) := by
    simp only [MapServer.loadMap, hch]
    simp
  rw [hload]
  exact ⟨rfl, rfl, rfl, rfl,
    MapServer.queryRegion_clearServer _ b,
    MapServer.queryRadius_clearServer _ c r,
    MapServer.getClosestLane_clearServer _ c⟩

/-- Witness for C3 at a concrete over-budget input: one lane against a
`maxLanes = 0` budget. -/
theorem c3_overbudget_witness :
    (MapServer.loadMap (MapServer.fresh ⟨100, 0, 0, 0⟩)
        ⟨[mkLane 1 [⟨0, 0⟩]], [], []⟩).1 = false ∧
    MapServer.getLaneCount
      (MapServer.loadMap (MapServer.fresh ⟨100, 0, 0, 0⟩)
        ⟨[mkLane 1 [⟨0, 0⟩]], [], []⟩).2 = 0 ∧
    MapServer.getTrafficLightCount
      (MapServer.loadMap (MapServer.fresh ⟨100, 0, 0, 0⟩)
        ⟨[mkLane 1 [⟨0, 0⟩]], [], []⟩).2 = 0 ∧
    MapServer.getTrafficSignCount
      (MapServer.loadMap (MapServer.fresh ⟨100, 0, 0, 0⟩)
        ⟨[mkLane 1 [⟨0, 0⟩]], [], []⟩).2 = 0 ∧
    MapServer.queryRegion
      (MapServer.loadMap (MapServer.fresh ⟨100, 0, 0, 0⟩)
        ⟨[mkLane 1 [⟨0, 0⟩]], [], []⟩).2 ⟨⟨0, 0⟩, ⟨1, 1⟩⟩ = ⟨[], [], []⟩ ∧
    MapServer.queryRadius
      (MapServer.loadMap (MapServer.fresh ⟨100, 0, 0, 0⟩)
        ⟨[mkLane 1 [⟨0, 0⟩]], [], []⟩).2 ⟨0, 0⟩ 5 = ⟨[], [], []⟩ ∧
    MapServer.getClosestLane
      (MapServer.loadMap (MapServer.fresh ⟨100, 0, 0, 0⟩)
        ⟨[mkLane 1 [⟨0, 0⟩]], [], []⟩).2 ⟨0, 0⟩ = none :=
  c3_overbudget_load_fails_and_clears
    (MapServer.fresh ⟨100, 0, 0, 0⟩) ⟨[mkLane 1 [⟨0, 0⟩]], [], []⟩
    ⟨⟨0, 0⟩, ⟨1, 1⟩⟩ ⟨0, 0⟩ 5 (Or.inl (by decide))


/-! ## The closest-lane scan: fold lemmas -/

namespace MapServer

/-- The sequence of `(lane, centerline point)` pairs visited by the
closest-lane scan, in visit order. -/
def pointsOf (cands : List Lane) : List (Lane × Point2D) :=
  cands.flatMap fun l => l.centerline.map fun p => (l, p)

/-- The candidate list `getClosestLane` actually scans: the 50 m stage, or
the 200 m stage when the first stage came back empty. -/
def closestCandidates (s : MapServer) (pos : Point2D) : List Lane :=
  if (getNearbyLanes s pos 50).isEmpty then getNearbyLanes s pos 200
  else getNearbyLanes s pos 50

theorem mem_pointsOf {cands : List Lane} {l : Lane} {p : Point2D} :
    (l, p) ∈ pointsOf cands ↔ l ∈ cands ∧ p ∈ l.centerline := by
  constructor
  · intro h
    rcases List.mem_flatMap.mp h with ⟨l', hl', hmem⟩
    rcases List.mem_map.mp hmem with ⟨q, hq, heq⟩
    injection heq with h1 h2
    subst h1
    subst h2
    exact ⟨hl', hq⟩
  · rintro ⟨hl, hp⟩
    exact List.mem_flatMap.mpr ⟨l, hl, List.mem_map.mpr ⟨p, hp, rfl⟩⟩

theorem scanStep_snd_isSome (pos : Point2D) (acc : Option Lane × Option Rat)
    (lp : Lane × Point2D) : (scanStep pos acc lp).2.isSome = true := by
  obtain ⟨a1, a2⟩ := acc
  unfold scanStep
  cases a2 with
  | none => rfl
  | some m =>
    dsimp only
    split <;> rfl

/-- The nested scan is the linear fold over the visited pairs. -/
theorem scanClosest_eq_foldPoints (pos : Point2D) (cands : List Lane) :
    scanClosest pos cands = ((pointsOf cands).foldl (scanStep pos) (none, none)).1 := by
  suffices h : ∀ acc : Option Lane × Option Rat,
      cands.foldl (fun acc l => l.centerline.foldl (fun a p => scanStep pos a (l, p)) acc) acc
        = (pointsOf cands).foldl (scanStep pos) acc by
    unfold scanClosest
    rw [h]
  induction cands with
  | nil => intro acc; rfl
  | cons l ls ih =>
    intro acc
    rw [List.foldl_cons]
    unfold pointsOf
    rw [List.flatMap_cons, List.foldl_append, List.foldl_map]
    exact ih _

/-- When the fold ends without a recorded minimum, it never moved: the
accumulator was initial and there was nothing to visit. -/
theorem scanFold_none (pos : Point2D) :
    ∀ (L : List (Lane × Point2D)) (acc : Option Lane × Option Rat),
      (L.foldl (scanStep pos) acc).2 = none → acc.2 = none ∧ L = [] := by
  intro L
  induction L with
  | nil => intro acc h; exact ⟨h, rfl⟩
  | cons lp L ih =>
    intro acc h
    rw [List.foldl_cons] at h
    obtain ⟨hsnd, -⟩ := ih _ h
    have hs := scanStep_snd_isSome pos acc lp
    rw [hsnd] at hs
    cases hs

/-- The fold either never improves on its accumulator, or lands exactly on
one of the visited pairs. -/
theorem scanFold_attain (pos : Point2D) :
    ∀ (L : List (Lane × Point2D)) (acc : Option Lane × Option Rat),
      L.foldl (scanStep pos) acc = acc ∨
        ∃ lp ∈ L, L.foldl (scanStep pos) acc = (some lp.1, some (sqDist pos lp.2)) := by
  intro L
  induction L with
  | nil => intro acc; exact Or.inl rfl
  | cons lp L ih =>
    intro acc
    rw [List.foldl_cons]
    rcases ih (scanStep pos acc lp) with h | ⟨lp', hmem, h⟩
    · rw [h]
      obtain ⟨a1, a2⟩ := acc
      unfold scanStep
      cases a2 with
      | none => exact Or.inr ⟨lp, List.mem_cons_self .., rfl⟩
      | some m =>
        dsimp only
        split
        · exact Or.inr ⟨lp, List.mem_cons_self .., rfl⟩
        · exact Or.inl rfl
    · exact Or.inr ⟨lp', List.mem_cons_of_mem _ hmem, h⟩

/-- The recorded minimum is a lower bound for every visited squared
distance and never exceeds the accumulator's incoming minimum. -/
theorem scanFold_min (pos : Point2D) :
    ∀ (L : List (Lane × Point2D)) (acc : Option Lane × Option Rat) (m : Rat),
      (L.foldl (scanStep pos) acc).2 = some m →
      (∀ lp ∈ L, m ≤ sqDist pos lp.2) ∧ (∀ m0, acc.2 = some m0 → m ≤ m0) := by
  intro L
  induction L with
  | nil =>
    intro acc m h
    rw [List.foldl_nil] at h
    refine ⟨by simp, ?_⟩
    intro m0 h0
    exact le_of_eq (Option.some.inj (h.symm.trans h0))
  | cons lp L ih =>
    intro acc m h
    rw [List.foldl_cons] at h
    obtain ⟨hL, hacc⟩ := ih (scanStep pos acc lp) m h
    obtain ⟨a1, a2⟩ := acc
    have hstep : ∀ v, (scanStep pos (a1, a2) lp).2 = some v → m ≤ v := hacc
    constructor
    · intro lp' hmem
      rcases List.mem_cons.mp hmem with heq | hmem'
      · rw [heq]
        cases a2 with
        | none => exact hstep _ rfl
        | some m0 =>
          by_cases hlt : sqDist pos lp.2 < m0
          · refine hstep _ ?_
            unfold scanStep
            dsimp only
            rw [if_pos hlt]
          · have h2 : (scanStep pos (a1, some m0) lp).2 = some m0 := by
              unfold scanStep
              dsimp only
              rw [if_neg hlt]
            exact (hstep _ h2).trans (not_lt.mp hlt)
      · exact hL _ hmem'
    · intro m0 h0
      cases a2 with
      | none => cases h0
      | some m1 =>
        have hm : m1 = m0 := Option.some.inj h0
        rw [← hm]
        by_cases hlt : sqDist pos lp.2 < m1
        · have h2 : (scanStep pos (a1, some m1) lp).2 = some (sqDist pos lp.2) := by
            unfold scanStep
            dsimp only
            rw [if_pos hlt]
          exact (hstep _ h2).trans (le_of_lt hlt)
        · have h2 : (scanStep pos (a1, some m1) lp).2 = some m1 := by
            unfold scanStep
            dsimp only
            rw [if_neg hlt]
          exact hstep _ h2

/-- A returned closest lane owns a visited centerline point whose squared
distance is minimal over every candidate's centerline. -/
theorem scanClosest_spec (pos : Point2D) (cands : List Lane) (l : Lane)
    (h : scanClosest pos cands = some l) :
    ∃ p, p ∈ l.centerline ∧ l ∈ cands ∧
      ∀ l' ∈ cands, ∀ q ∈ l'.centerline, sqDist pos p ≤ sqDist pos q := by
  rw [scanClosest_eq_foldPoints] at h
  rcases scanFold_attain pos (pointsOf cands) (none, none) with hA | ⟨lp, hmem, hA⟩
  · rw [hA] at h
    cases h
  · rw [hA] at h
    obtain rfl : lp.1 = l := Option.some.inj h
    have hsnd : ((pointsOf cands).foldl (scanStep pos) (none, none)).2
        = some (sqDist pos lp.2) := by rw [hA]
    obtain ⟨hmin, -⟩ := scanFold_min pos (pointsOf cands) (none, none) _ hsnd
    have hm : lp.1 ∈ cands ∧ lp.2 ∈ lp.1.centerline := mem_pointsOf.mp hmem
    refine ⟨lp.2, hm.2, hm.1, ?_⟩
    intro l' hl' q hq
    exact hmin (l', q) (mem_pointsOf.mpr ⟨hl', hq⟩)

/-- The scan finds something as soon as one candidate has a nonempty
centerline. -/
theorem scanClosest_some_of (pos : Point2D) (cands : List Lane) (l0 : Lane)
    (h0 : l0 ∈ cands) (hne : l0.centerline ≠ []) :
    ∃ l, scanClosest pos cands = some l := by
  rw [scanClosest_eq_foldPoints]
  rcases scanFold_attain pos (pointsOf cands) (none, none) with hA | ⟨lp, _, hA⟩
  · exfalso
    have h2 : ((pointsOf cands).foldl (scanStep pos) (none, none)).2 = none := by rw [hA]
    obtain ⟨-, hnil⟩ := scanFold_none pos _ _ h2
    cases hcl : l0.centerline with
    | nil => exact hne hcl
    | cons q qs =>
      have hq : (l0, q) ∈ pointsOf cands :=
        mem_pointsOf.mpr ⟨h0, by rw [hcl]; exact List.mem_cons_self ..⟩
      rw [hnil] at hq
      cases hq
  · exact ⟨lp.1, by rw [hA]⟩

/-- Branch structure of `getClosestLane` in terms of the effective
candidate list. -/
theorem getClosestLane_eq (s : MapServer) (pos : Point2D) :
    getClosestLane s pos
      = if (closestCandidates s pos).isEmpty then none
        else some (scanClosest pos (closestCandidates s pos)) := by
  unfold getClosestLane closestCandidates
  by_cases h1 : (getNearbyLanes s pos 50).isEmpty
  · simp [h1]
  · simp [h1]

/-- Lanes surviving the narrow phase of `queryRadius` own a centerline
point within the radius. -/
theorem mem_queryRadius_lanes (s : MapServer) (c : Point2D) (r : Rat) (l : Lane)
    (h : l ∈ (queryRadius s c r).lanes) :
    ∃ p ∈ l.centerline, distLe c p r = true := by
  unfold queryRadius at h
  dsimp only at h
  have hp := List.of_mem_filter h
  simpa [List.any_eq_true] using hp

/-- Monotonicity of the exact distance test in the radius. -/
theorem distLe_mono {a b : Point2D} {r1 r2 : Rat} (h : distLe a b r1 = true)
    (hr : r1 ≤ r2) : distLe a b r2 = true := by
  unfold distLe at h ⊢
  simp only [Bool.and_eq_true, decide_eq_true_eq] at h ⊢
  obtain ⟨h0, hsq⟩ := h
  exact ⟨h0.trans hr, hsq.trans (mul_self_le_mul_self h0 hr)⟩

/-- A squared distance below a passing one also passes the radius test. -/
theorem distLe_of_sq_le {a p q : Point2D} {r : Rat} (h : distLe a q r = true)
    (hle : sqDist a p ≤ sqDist a q) : distLe a p r = true := by
  unfold distLe at h ⊢
  simp only [Bool.and_eq_true, decide_eq_true_eq] at h ⊢
  exact ⟨h.1, hle.trans h.2⟩

/-- Every effective closest-lane candidate owns a centerline point within
200 m of the query position. -/
theorem closestCandidates_within_200 (s : MapServer) (pos : Point2D) (l : Lane)
    (h : l ∈ closestCandidates s pos) :
    ∃ p ∈ l.centerline, distLe pos p 200 = true := by
  unfold closestCandidates at h
  split at h
  · exact mem_queryRadius_lanes s pos 200 l h
  · obtain ⟨p, hp, hd⟩ := mem_queryRadius_lanes s pos 50 l h
    exact ⟨p, hp, distLe_mono hd (by norm_num)⟩

end MapServer


/-- C7: the two-stage expanding search of `getClosestLane` — the 50 m
stage is used whenever it finds candidates, the 200 m stage only when it
does not, "not found" exactly when both stages are empty; any returned
lane owns the candidate centerline point globally nearest to the
position; and on the spec's concrete two-lane example the result is lane
`100`. -/
theorem c7_two_stage_closest_lane (s : MapServer) (pos : Point2D) :
    (MapServer.getNearbyLanes s pos 50 ≠ [] →
      MapServer.getClosestLane s pos
        = some (MapServer.scanClosest pos (MapServer.getNearbyLanes s pos 50))) ∧
    (MapServer.getNearbyLanes s pos 50 = [] →
      MapServer.getClosestLane s pos
        = (if (MapServer.getNearbyLanes s pos 200).isEmpty then none
           else some (MapServer.scanClosest pos (MapServer.getNearbyLanes s pos 200)))) ∧
    (MapServer.getClosestLane s pos = none ↔
      MapServer.getNearbyLanes s pos 50 = [] ∧ MapServer.getNearbyLanes s pos 200 = []) ∧
    (∀ l : Lane, MapServer.getClosestLane s pos = some (some l) →
      ∃ p, p ∈ l.centerline ∧ l ∈ MapServer.closestCandidates s pos ∧
        ∀ l' ∈ MapServer.closestCandidates s pos, ∀ q ∈ l'.centerline,
          sqDist pos p ≤ sqDist pos q) ∧
    (∃ cl, MapServer.getClosestLane c7Server ⟨10, 5⟩ = some (some cl) ∧ cl.id = 100) := by
  refine ⟨?_, ?_, ?_, ?_, ?_⟩
  · intro h50
    unfold MapServer.getClosestLane
    rw [if_neg]
    intro hE
    exact h50 (List.isEmpty_iff.mp hE)
  · intro h50
    unfold MapServer.getClosestLane
    rw [if_pos (List.isEmpty_iff.mpr h50)]
  · unfold MapServer.getClosestLane
    by_cases h50 : (MapServer.getNearbyLanes s pos 50).isEmpty
    · by_cases h200 : (MapServer.getNearbyLanes s pos 200).isEmpty
      · rw [if_pos h50, if_pos h200]
        simp [List.isEmpty_iff.mp h50, List.isEmpty_iff.mp h200]
      · rw [if_pos h50, if_neg h200]
        simp only [List.isEmpty_iff] at h200
        simp [h200]
    · rw [if_neg h50]
      simp only [List.isEmpty_iff] at h50
      simp [h50]
  · intro l hl
    rw [MapServer.getClosestLane_eq] at hl
    by_cases hce : (MapServer.closestCandidates s pos).isEmpty
    · rw [if_pos hce] at hl
      cases hl
    · rw [if_neg hce] at hl
      exact MapServer.scanClosest_spec pos _ l (Option.some.inj hl)
  · exact ⟨c7Server.lanes.getD 0 default, by decide, by decide⟩

/-- Witness for C7: the two-lane example map at position `(10, 5)` returns
lane `100`, whose nearest centerline point dominates every candidate. -/
theorem c7_two_stage_closest_lane_witness :
    ∃ p, p ∈ (c7Server.lanes.getD 0 default).centerline ∧
      (c7Server.lanes.getD 0 default) ∈ MapServer.closestCandidates c7Server ⟨10, 5⟩ ∧
      ∀ l' ∈ MapServer.closestCandidates c7Server ⟨10, 5⟩, ∀ q ∈ l'.centerline,
        sqDist ⟨10, 5⟩ p ≤ sqDist ⟨10, 5⟩ q :=
  (c7_two_stage_closest_lane c7Server ⟨10, 5⟩).2.2.2.1
    (c7Server.lanes.getD 0 default) (by decide)

/-- C10: whenever `getClosestLane` returns an engaged optional, the inner
lane pointer is non-null and that lane owns a centerline point within 200
m of the query position (every candidate passed the exact radius filter at
50 m or 200 m). -/
theorem c10_closest_lane_within_200 (s : MapServer) (pos : Point2D)
    (x : Option Lane) (h : MapServer.getClosestLane s pos = some x) :
    ∃ l, x = some l ∧ ∃ p, p ∈ l.centerline ∧ distLe pos p 200 = true := by
  rw [MapServer.getClosestLane_eq] at h
  by_cases hce : (MapServer.closestCandidates s pos).isEmpty
  · rw [if_pos hce] at h
    cases h
  · rw [if_neg hce] at h
    have hx : MapServer.scanClosest pos (MapServer.closestCandidates s pos) = x :=
      Option.some.inj h
    have hne : MapServer.closestCandidates s pos ≠ [] := by
      intro hnil
      rw [hnil] at hce
      exact hce rfl
    obtain ⟨l0, hl0⟩ := List.exists_mem_of_ne_nil _ hne
    obtain ⟨q0, hq0, -⟩ := MapServer.closestCandidates_within_200 s pos l0 hl0
    obtain ⟨l, hscan⟩ := MapServer.scanClosest_some_of pos _ l0 hl0
      (List.ne_nil_of_mem hq0)
    obtain ⟨p, hp, hlc, hmin⟩ := MapServer.scanClosest_spec pos _ l hscan
    obtain ⟨q, hq, hdq⟩ := MapServer.closestCandidates_within_200 s pos l hlc
    refine ⟨l, by rw [← hx, hscan], p, hp, ?_⟩
    exact MapServer.distLe_of_sq_le hdq (hmin l hlc q hq)

/-- Witness for C10: at the two-lane example map the returned lane `100`
indeed owns a centerline point within 200 m of `(10, 5)`. -/
theorem c10_closest_lane_within_200_witness :
    ∃ l, (some (c7Server.lanes.getD 0 default) : Option Lane) = some l ∧
      ∃ p, p ∈ l.centerline ∧ distLe ⟨10, 5⟩ p 200 = true :=
  c10_closest_lane_within_200 c7Server ⟨10, 5⟩
    (some (c7Server.lanes.getD 0 default)) (by decide)


/-- C5 (amended): in the split distribution loop a non-seed entry goes to
the original node exactly when its enlargement there is strictly smaller,
and to the new sibling node when its enlargement there is strictly
smaller; on equal enlargements (ties) it goes to the **new** sibling
node. -/
theorem c5_amended_ties_favor_new_node (t : RTree) (nid newId s1 s2 i : Nat)
    (e : RTreeEntry)
    (hseed : ¬ (i = s1 ∨ i = s2))
    (htie : RTree.computeEnlargement (t.nodeBB nid) e.bbox
          = RTree.computeEnlargement (t.nodeBB newId) e.bbox) :
    RTree.distribStep nid newId s1 s2 t (i, e)
      = t.setEntries newId ((t.nd newId).entries ++ [e]) ∧
    (∀ (t' : RTree) (j : Nat) (e' : RTreeEntry), ¬ (j = s1 ∨ j = s2) →
      RTree.computeEnlargement (t'.nodeBB nid) e'.bbox
        < RTree.computeEnlargement (t'.nodeBB newId) e'.bbox →
      RTree.distribStep nid newId s1 s2 t' (j, e')
        = t'.setEntries nid ((t'.nd nid).entries ++ [e'])) ∧
    (∀ (t' : RTree) (j : Nat) (e' : RTreeEntry), ¬ (j = s1 ∨ j = s2) →
      RTree.computeEnlargement (t'.nodeBB newId) e'.bbox
        < RTree.computeEnlargement (t'.nodeBB nid) e'.bbox →
      RTree.distribStep nid newId s1 s2 t' (j, e')
        = t'.setEntries newId ((t'.nd newId).entries ++ [e'])) := by
  refine ⟨?_, ?_, ?_⟩
  · simp only [RTree.distribStep]
    rw [if_neg hseed]
    split
    · next hlt =>
        rw [htie] at hlt
        exact absurd hlt (lt_irrefl _)
    · rfl
  · intro t' j e' hj hlt
    simp only [RTree.distribStep]
    rw [if_neg hj]
    split
    · rfl
    · next hnlt => exact absurd hlt hnlt
  · intro t' j e' hj hlt
    simp only [RTree.distribStep]
    rw [if_neg hj]
    split
    · next hlt' => exact absurd hlt' (lt_asymm hlt)
    · rfl

/-- Witness for C5 (amended): the tied entry `(4, 0)` of the collinear
split goes to the new node, the strictly-smaller-for-the-original case
goes to the original node, and the strictly-smaller-for-the-new case
goes to the new node. -/
theorem c5_amended_ties_favor_new_node_witness :
    RTree.distribStep 0 1 0 1 (buildCollinear 9) (2, ⟨ptBox 4 0, RData.item 4⟩)
      = (buildCollinear 9).setEntries 1
          (((buildCollinear 9).nd 1).entries ++ [⟨ptBox 4 0, RData.item 4⟩]) ∧
    (∀ (t' : RTree) (j : Nat) (e' : RTreeEntry), ¬ (j = 0 ∨ j = 1) →
      RTree.computeEnlargement (t'.nodeBB 0) e'.bbox
        < RTree.computeEnlargement (t'.nodeBB 1) e'.bbox →
      RTree.distribStep 0 1 0 1 t' (j, e')
        = t'.setEntries 0 ((t'.nd 0).entries ++ [e'])) ∧
    (∀ (t' : RTree) (j : Nat) (e' : RTreeEntry), ¬ (j = 0 ∨ j = 1) →
      RTree.computeEnlargement (t'.nodeBB 1) e'.bbox
        < RTree.computeEnlargement (t'.nodeBB 0) e'.bbox →
      RTree.distribStep 0 1 0 1 t' (j, e')
        = t'.setEntries 1 ((t'.nd 1).entries ++ [e'])) :=
  c5_amended_ties_favor_new_node (buildCollinear 9) 0 1 0 1 2
    ⟨ptBox 4 0, RData.item 4⟩ (by decide) (by decide)

/-- C8: the memory estimate is monotone — appending an entity of any kind,
a point to any lane polyline, or an id to any reference list never
decreases it — and it is a deterministic function of the stored contents
(entity lists and index entry counts). -/
theorem c8_usage_monotone_and_deterministic
    (s : MapServer) (nl : Lane) (nt : TrafficLight) (ns : TrafficSign) :
    MapServer.getMemoryUsage { s with lanes := s.lanes ++ [nl] }
      ≥ MapServer.getMemoryUsage s ∧
    MapServer.getMemoryUsage { s with trafficLights := s.trafficLights ++ [nt] }
      ≥ MapServer.getMemoryUsage s ∧
    MapServer.getMemoryUsage { s with trafficSigns := s.trafficSigns ++ [ns] }
      ≥ MapServer.getMemoryUsage s ∧
    (∀ (pre post : List Lane) (l : Lane) (p : Point2D), s.lanes = pre ++ l :: post →
      MapServer.getMemoryUsage
          { s with lanes := pre ++ { l with centerline := l.centerline ++ [p] } :: post }
        ≥ MapServer.getMemoryUsage s) ∧
    (∀ (pre post : List Lane) (l : Lane) (p : Point2D), s.lanes = pre ++ l :: post →
      MapServer.getMemoryUsage
          { s with lanes := pre ++ { l with leftBoundary := l.leftBoundary ++ [p] } :: post }
        ≥ MapServer.getMemoryUsage s) ∧
    (∀ (pre post : List Lane) (l : Lane) (p : Point2D), s.lanes = pre ++ l :: post →
      MapServer.getMemoryUsage
          { s with lanes := pre ++ { l with rightBoundary := l.rightBoundary ++ [p] } :: post }
        ≥ MapServer.getMemoryUsage s) ∧
    (∀ (pre post : List Lane) (l : Lane) (j : Nat), s.lanes = pre ++ l :: post →
      MapServer.getMemoryUsage
          { s with lanes := pre ++ { l with predecessorIds := l.predecessorIds ++ [j] } :: post }
        ≥ MapServer.getMemoryUsage s) ∧
    (∀ (pre post : List Lane) (l : Lane) (j : Nat), s.lanes = pre ++ l :: post →
      MapServer.getMemoryUsage
          { s with lanes := pre ++ { l with successorIds := l.successorIds ++ [j] } :: post }
        ≥ MapServer.getMemoryUsage s) ∧
    (∀ (pre post : List Lane) (l : Lane) (j : Nat), s.lanes = pre ++ l :: post →
      MapServer.getMemoryUsage
          { s with lanes := pre ++ { l with adjacentLeftIds := l.adjacentLeftIds ++ [j] } :: post }
        ≥ MapServer.getMemoryUsage s) ∧
    (∀ (pre post : List Lane) (l : Lane) (j : Nat), s.lanes = pre ++ l :: post →
      MapServer.getMemoryUsage
          { s with lanes := pre ++ { l with adjacentRightIds := l.adjacentRightIds ++ [j] } :: post }
        ≥ MapServer.getMemoryUsage s) ∧
    (∀ (preT postT : List TrafficLight) (tl : TrafficLight) (j : Nat),
      s.trafficLights = preT ++ tl :: postT →
      MapServer.getMemoryUsage
          { s with trafficLights :=
              preT ++ { tl with controlledLaneIds := tl.controlledLaneIds ++ [j] } :: postT }
        ≥ MapServer.getMemoryUsage s) ∧
    (∀ (preS postS : List TrafficSign) (sg : TrafficSign) (j : Nat),
      s.trafficSigns = preS ++ sg :: postS →
      MapServer.getMemoryUsage
          { s with trafficSigns :=
              preS ++ { sg with affectedLaneIds := sg.affectedLaneIds ++ [j] } :: postS }
        ≥ MapServer.getMemoryUsage s) ∧
    (∀ s2 : MapServer, s2.lanes = s.lanes → s2.trafficLights = s.trafficLights →
      s2.trafficSigns = s.trafficSigns →
      s2.laneIndex.elementCount = s.laneIndex.elementCount →
      s2.trafficLightIndex.elementCount = s.trafficLightIndex.elementCount →
      s2.trafficSignIndex.elementCount = s.trafficSignIndex.elementCount →
      MapServer.getMemoryUsage s2 = MapServer.getMemoryUsage s) := by
  refine ⟨?_, ?_, ?_, ?_, ?_, ?_, ?_, ?_, ?_, ?_, ?_, ?_, ?_⟩
  all_goals intros
  all_goals
    unfold MapServer.getMemoryUsage MapServer.laneCost MapServer.lightCost
      MapServer.signCost RTree.size MapServer.sizeofLane MapServer.sizeofPoint2D
      MapServer.sizeofUInt64 MapServer.sizeofTrafficLight MapServer.sizeofTrafficSign
  all_goals
    simp only [*, List.map_append, List.map_cons, List.map_nil, List.sum_append,
      List.sum_cons, List.sum_nil, List.length_append, List.length_cons,
      List.length_nil]
  all_goals omega

/-- Witness for C8 at a concrete one-entity-per-kind store. -/
theorem c8_usage_monotone_witness :
    MapServer.getMemoryUsage
        { c8WServer with lanes := c8WServer.lanes ++ [mkLane 2 []] }
      ≥ MapServer.getMemoryUsage c8WServer ∧
    MapServer.getMemoryUsage
        { c8WServer with lanes :=
            [] ++ { mkLane 1 [] with centerline := (mkLane 1 []).centerline ++ [⟨3, 4⟩] } :: [] }
      ≥ MapServer.getMemoryUsage c8WServer ∧
    MapServer.getMemoryUsage
        { c8WServer with trafficLights :=
            [] ++ { c8WLight with controlledLaneIds := c8WLight.controlledLaneIds ++ [7] } :: [] }
      ≥ MapServer.getMemoryUsage c8WServer ∧
    MapServer.getMemoryUsage c8WServer = MapServer.getMemoryUsage c8WServer := by
  obtain ⟨h1, h2, h3, h4, h5, h6, h7, h8, h9, h10, h11, h12, h13⟩ :=
    c8_usage_monotone_and_deterministic c8WServer (mkLane 2 []) c8WLight c8WSign
  exact ⟨h1, h4 [] [] (mkLane 1 []) ⟨3, 4⟩ rfl, h11 [] [] c8WLight 7 rfl,
    h13 c8WServer rfl rfl rfl rfl rfl rfl⟩


/-! ## Small trees never split: the C9 single-leaf lemmas -/

namespace RTree

theorem insert_singleLeaf (es : List RTreeEntry)
    (h : es.length < MAX_RTREE_ENTRIES) (b : BoundingBox) (d : RData) :
    (singleLeaf es).insert b d = singleLeaf (es ++ [⟨b, d⟩]) := by
  cases es with
  | nil => rfl
  | cons e es' =>
    have hne : ¬ ((singleLeaf (e :: es')).nd (singleLeaf (e :: es')).root).entries = [] := by
      intro hx
      cases hx
    unfold insert
    rw [if_neg hne]
    have hfull : ((singleLeaf (e :: es')).nd
        ((singleLeaf (e :: es')).chooseLeaf b)).entries.length < MAX_RTREE_ENTRIES := h
    simp only [if_pos hfull]
    have hadj : adjustTree ((singleLeaf (e :: es')).setEntries
          ((singleLeaf (e :: es')).chooseLeaf b)
          (((singleLeaf (e :: es')).nd ((singleLeaf (e :: es')).chooseLeaf b)).entries
            ++ [⟨b, d⟩])) ((singleLeaf (e :: es')).chooseLeaf b)
        = (singleLeaf (e :: es')).setEntries 0 ((e :: es') ++ [⟨b, d⟩]) := rfl
    rw [hadj]
    congr 1
    rw [List.length_append]
    rfl

/-- Folding up to eight inserts over a small single-leaf tree appends the
entries in order, never splitting. -/
theorem foldl_insert_singleLeaf {α : Type} (f : α → BoundingBox) (d : α → RData) :
    ∀ (L : List α) (es : List RTreeEntry),
      es.length + L.length ≤ MAX_RTREE_ENTRIES →
      L.foldl (fun t a => t.insert (f a) (d a)) (singleLeaf es)
        = singleLeaf (es ++ L.map fun a => ⟨f a, d a⟩) := by
  intro L
  induction L with
  | nil =>
    intro es h
    simp
  | cons a L ih =>
    intro es h
    rw [List.length_cons] at h
    have hb : (es ++ [(⟨f a, d a⟩ : RTreeEntry)]).length + L.length ≤ MAX_RTREE_ENTRIES := by
      rw [List.length_append]
      simp only [List.length_cons, List.length_nil]
      omega
    rw [List.foldl_cons, insert_singleLeaf es (by omega) (f a) (d a), ih _ hb]
    simp

/-- Querying a single-leaf tree returns the data of exactly the entries
whose bbox intersects the query box, in order. -/
theorem query_singleLeaf (es : List RTreeEntry) (q : BoundingBox) :
    (singleLeaf es).query q
      = (es.filter fun e => intersectsB e.bbox q).map (fun e => e.data) := by
  have aux : ∀ (L : List RTreeEntry) (acc : List RData),
      L.foldl (fun acc e => if intersectsB e.bbox q then acc ++ [e.data] else acc) acc
        = acc ++ (L.filter fun e => intersectsB e.bbox q).map (fun e => e.data) := by
    intro L
    induction L with
    | nil => intro acc; simp
    | cons e L ih =>
      intro acc
      rw [List.foldl_cons]
      by_cases hi : intersectsB e.bbox q
      · rw [if_pos hi, ih]
        simp [List.filter_cons, hi]
      · rw [if_neg hi, ih]
        simp [List.filter_cons, hi]
  have hq : (singleLeaf es).query q
      = es.foldl (fun acc e => if intersectsB e.bbox q then acc ++ [e.data] else acc) [] := rfl
  rw [hq, aux]
  rfl

end RTree

/-- A box that contains the origin intersects the degenerate origin box. -/
theorem intersects_zeroBox_of_contains (q : BoundingBox)
    (h : containsB q ⟨0, 0⟩ = true) : intersectsB zeroBox q = true := by
  simp only [containsB, Bool.and_eq_true, decide_eq_true_eq, ge_iff_le] at h
  obtain ⟨⟨⟨h1, h2⟩, h3⟩, h4⟩ := h
  simp only [intersectsB, zeroBox, Bool.not_eq_true', Bool.or_eq_false_iff,
    decide_eq_false_iff_not, not_lt]
  exact ⟨⟨⟨h1, by simpa using h2⟩, h3⟩, by simpa using h4⟩

/-- C9 (amended): a lane with an empty centerline gets the degenerate
origin bbox (its boundary polylines, empty or not, are ignored), the index
build inserts it with that origin box; and as long as the map is small
enough that the lane index stays a single leaf (at most 8 lanes, so no
split-related defect can intervene), region queries whose box contains the
origin return the lane. -/
theorem c9_amended_origin_lane (cfg : MemoryConstraints) (lanesIn : List Lane)
    (lights : List TrafficLight) (signs : List TrafficSign)
    (i : Nat) (lane : Lane) (q : BoundingBox)
    (h8 : lanesIn.length ≤ MAX_RTREE_ENTRIES)
    (hi : lanesIn.get? i = some lane)
    (hempty : lane.centerline = [])
    (hq : containsB q ⟨0, 0⟩ = true) :
    (∀ l' : Lane, l'.centerline = [] → computeBoundingBox l' = zeroBox) ∧
    (⟨zeroBox, RData.item i⟩ : RTreeEntry) ∈
      ((MapServer.buildSpatialIndices (mkStore cfg lanesIn lights signs)).laneIndex.nd
        (MapServer.buildSpatialIndices (mkStore cfg lanesIn lights signs)).laneIndex.root).entries ∧
    { lane with bbox := zeroBox } ∈
      (MapServer.queryRegion
        (MapServer.buildSpatialIndices (mkStore cfg lanesIn lights signs)) q).lanes := by
  have hbb : ∀ l' : Lane, l'.centerline = [] → computeBoundingBox l' = zeroBox := by
    intro l' hl'
    simp only [computeBoundingBox, hl']
  refine ⟨hbb, ?_⟩
  set lanes' := lanesIn.map (fun l => { l with bbox := computeBoundingBox l }) with hlanes'
  have hlane' : lanes'.get? i = some { lane with bbox := zeroBox } := by
    rw [hlanes', List.get?_map, hi]
    simp [hbb lane hempty]
  have hlen : ([] : List RTreeEntry).length + lanes'.enum.length ≤ MAX_RTREE_ENTRIES := by
    simp only [List.length_nil, List.enum_length, Nat.zero_add, hlanes', List.length_map]
    exact h8
  have hidx : (MapServer.buildSpatialIndices (mkStore cfg lanesIn lights signs)).laneIndex
      = RTree.singleLeaf (lanes'.enum.map
          fun il => ⟨il.2.bbox, RData.item il.1⟩) := by
    show lanes'.enum.foldl (fun t il => t.insert il.2.bbox (RData.item il.1))
        RTree.empty.clear
      = RTree.singleLeaf (lanes'.enum.map fun il => ⟨il.2.bbox, RData.item il.1⟩)
    have := RTree.foldl_insert_singleLeaf
      (fun il : Nat × Lane => il.2.bbox) (fun il : Nat × Lane => RData.item il.1)
      lanes'.enum [] hlen
    simpa using this
  have hmem_enum : (i, { lane with bbox := zeroBox }) ∈ lanes'.enum := by
    rw [List.mem_enum_iff_get?]
    exact hlane'
  have hmem_entry : (⟨zeroBox, RData.item i⟩ : RTreeEntry) ∈
      lanes'.enum.map (fun il => (⟨il.2.bbox, RData.item il.1⟩ : RTreeEntry)) := by
    have := List.mem_map_of_mem
      (fun il : Nat × Lane => (⟨il.2.bbox, RData.item il.1⟩ : RTreeEntry)) hmem_enum
    simpa using this
  have hbuiltlanes : (MapServer.buildSpatialIndices (mkStore cfg lanesIn lights signs)).lanes
      = lanes' := rfl
  constructor
  · rw [hidx]
    exact hmem_entry
  · show { lane with bbox := zeroBox } ∈ MapServer.derefLanes _ _
    refine List.mem_filterMap.mpr ⟨RData.item i, ?_, ?_⟩
    · rw [hidx, RTree.query_singleLeaf]
      refine List.mem_map.mpr ⟨⟨zeroBox, RData.item i⟩, ?_, rfl⟩
      refine List.mem_filter.mpr ⟨hmem_entry, ?_⟩
      exact intersects_zeroBox_of_contains q hq
    · show (match RData.item i with
        | RData.item j =>
          (MapServer.buildSpatialIndices (mkStore cfg lanesIn lights signs)).lanes.get? j
        | RData.node _ => none) = some { lane with bbox := zeroBox }
      rw [hbuiltlanes]
      exact hlane'

/-- Witness for C9 (amended) on a one-lane map: the empty-centerline lane
is present as an origin entry of the leaf root and is returned by the
region query with box `(-1,-1)-(1,1)`. -/
theorem c9_amended_origin_lane_witness :
    (⟨zeroBox, RData.item 0⟩ : RTreeEntry) ∈
      ((MapServer.buildSpatialIndices (mkStore defaultConstraints [c9WLane] [] [])).laneIndex.nd
        (MapServer.buildSpatialIndices (mkStore defaultConstraints [c9WLane] [] [])).laneIndex.root).entries ∧
    { c9WLane with bbox := zeroBox } ∈
      (MapServer.queryRegion
        (MapServer.buildSpatialIndices (mkStore defaultConstraints [c9WLane] [] []))
        ⟨⟨-1, -1⟩, ⟨1, 1⟩⟩).lanes :=
  (c9_amended_origin_lane defaultConstraints [c9WLane] [] [] 0 c9WLane
    ⟨⟨-1, -1⟩, ⟨1, 1⟩⟩ (by decide) (by decide) (by decide) (by decide)).2

end HDMap
